import Mathlib

/-!
Verification of the Ledger & Settlement subsystem of the suban-ai backend.

The TypeScript services are shallowly embedded as pure Lean functions over
explicit state:

* `BalanceTrackerService` (balance-tracker.service.ts): `getBalance`,
  `recordDeposit`, `deductTokens`, `getUnsettledRecords`, `markAsSettled`,
  acting on a `Store` holding the `TokenBalance` and `UsageRecord` collections.
* `PriceOracleService` (price-oracle.service.ts): `getTWAPPrice`,
  `calculateTokenBurn`, acting on the in-memory price cache.
* `SettlementService` (settlement.service.ts): `executeBatchSettlement`,
  `checkAndSettleIfNeeded`, with the on-chain transaction submission
  abstracted as an injected `chain` function.
* `TransactionVerifierService` (transaction-verifier.service.ts):
  `verifyDepositTransaction` over decoded parsed-transaction shapes, with the
  RPC fetch and base58 key parsing abstracted as injected fallible functions.
* The deposit HTTP route handler (token.routes.ts `router.post('/deposit')`),
  which performs the duplicate-transaction check before crediting.

JavaScript numbers are modelled as `ℚ`; timestamps as `ℤ` (milliseconds);
thrown exceptions as `Except`.
-/

/-- `'deposit' | 'usage' | 'settlement'` from the TokenBalance schema. -/
inductive EntryType where
  | deposit
  | usage
  | settlement
  deriving Repr, DecidableEq

/-- `'chat' | 'voice'` request types. -/
inductive RequestType where
  | chat
  | voice
  deriving Repr, DecidableEq

/-- One element of `TokenBalance.transactions` (ITransaction). The metadata
map of a usage entry holds `requestType` and `usdCost`. -/
structure LedgerEntry where
  type : EntryType
  amount : ℚ
  txHash : Option String
  timestamp : ℤ
  metadata : Option (RequestType × ℚ)
  deriving Repr, DecidableEq

/-- A `TokenBalance` document (TokenBalance.ts model). -/
structure TokenBalance where
  walletAddress : String
  depositedAmount : ℚ
  consumedAmount : ℚ
  currentBalance : ℚ
  transactions : List LedgerEntry
  deriving Repr, DecidableEq

/-- A `UsageRecord` document (UsageRecord.ts model); `id` models Mongo `_id`. -/
structure UsageRecord where
  id : ℕ
  walletAddress : String
  requestType : RequestType
  usdCost : ℚ
  tokenPrice : ℚ
  tokensBurned : ℚ
  timestamp : ℤ
  settled : Bool
  txHash : Option String
  deriving Repr, DecidableEq

/-- The persistent store: the `TokenBalance` and `UsageRecord` collections,
plus a counter supplying fresh `_id`s for new usage records. -/
structure Store where
  wallets : List TokenBalance
  usageRecords : List UsageRecord
  nextId : ℕ
  deriving Repr, DecidableEq

/-- The empty database. -/
def Store.empty : Store := ⟨[], [], 0⟩

/-- `TokenBalance.findOne({ walletAddress })`. -/
def findWallet (st : Store) (walletAddress : String) : Option TokenBalance :=
  st.wallets.find? (fun w => w.walletAddress = walletAddress)

/-- `balance.save()`: upsert by wallet address (replaces every stored document
with the same key; appends when none exists). -/
def saveWallet (st : Store) (w : TokenBalance) : Store :=
  if st.wallets.any (fun x => x.walletAddress = w.walletAddress) then
    { st with wallets :=
        st.wallets.map (fun x => if x.walletAddress = w.walletAddress then w else x) }
  else
    { st with wallets := st.wallets ++ [w] }

/-- `BalanceTrackerService.getBalance`: read-or-create with all amounts zero. -/
def getBalance (st : Store) (walletAddress : String) : TokenBalance × Store :=
  match findWallet st walletAddress with
  | some balance => (balance, st)
  | none =>
      let balance : TokenBalance := ⟨walletAddress, 0, 0, 0, []⟩
      (balance, saveWallet st balance)

/-- `BalanceTrackerService.recordDeposit`: unconditionally credits
`depositedAmount` and `currentBalance` and appends a `deposit` entry.
(The duplicate-txHash check lives in the HTTP route, not here.) -/
def recordDeposit (st : Store) (walletAddress : String) (amount : ℚ)
    (txHash : String) (now : ℤ) : TokenBalance × Store :=
  let balance := (getBalance st walletAddress).1
  let st1 := (getBalance st walletAddress).2
  let balance' : TokenBalance :=
    { balance with
      depositedAmount := balance.depositedAmount + amount
      currentBalance := balance.currentBalance + amount
      transactions := balance.transactions ++
        [⟨EntryType.deposit, amount, some txHash, now, none⟩] }
  (balance', saveWallet st1 balance')

/-- A `(price, timestamp)` sample of the oracle's `priceCache`. -/
structure PriceSample where
  price : ℚ
  timestamp : ℤ
  deriving Repr, DecidableEq

/-- The `PriceOracleService` in-memory state and configuration
(`twapWindowMinutes` default 10, `burnFloor` default 0.05,
`burnCeiling` default 50). -/
structure PriceOracleState where
  priceCache : List PriceSample
  twapWindowMinutes : ℤ
  burnFloor : ℚ
  burnCeiling : ℚ
  deriving Repr, DecidableEq

/-- Failures thrown by the price oracle. -/
inductive PriceError where
  | noPriceData
  | invalidPrice
  deriving Repr, DecidableEq

/-- `PriceOracleService.getTWAPPrice`: arithmetic mean of the cached samples
whose age is within the TWAP window; the most recent sample when none is in
the window; throws when the cache is empty. -/
def getTWAPPrice (o : PriceOracleState) (now : ℤ) : Except PriceError ℚ :=
  match o.priceCache.getLast? with
  | none => .error .noPriceData
  | some lastSample =>
      let windowMs : ℤ := o.twapWindowMinutes * 60 * 1000
      let relevantPrices := o.priceCache.filter (fun s => now - s.timestamp ≤ windowMs)
      if relevantPrices.isEmpty then
        .ok lastSample.price
      else
        .ok ((relevantPrices.foldl (fun acc s => acc + s.price) 0) /
              (relevantPrices.length : ℚ))

/-- `PriceOracleService.calculateTokenBurn`: `usdCost / TWAP` clamped to
`[burnFloor, burnCeiling]`. -/
def calculateTokenBurn (o : PriceOracleState) (now : ℤ) (usdCost : ℚ) :
    Except PriceError ℚ :=
  match getTWAPPrice o now with
  | .error e => .error e
  | .ok tokenPrice =>
      if tokenPrice ≤ 0 then .error .invalidPrice
      else .ok (max o.burnFloor (min (usdCost / tokenPrice) o.burnCeiling))

/-- Failure thrown by `deductTokens`. -/
inductive DeductError where
  | insufficientBalance
  | noPriceData
  deriving Repr, DecidableEq

/-- `BalanceTrackerService.deductTokens`: throws `InsufficientBalance` when
`currentBalance < amount`; otherwise debits the wallet, saves it, appends a
negative `usage` entry, then (after the save) asks the oracle for the TWAP
price and inserts an unsettled `UsageRecord`.  The returned store reflects
every write performed before a throw, matching the sequential effects of the
TypeScript method. -/
def deductTokens (o : PriceOracleState) (now : ℤ) (st : Store)
    (walletAddress : String) (amount : ℚ) (requestType : RequestType)
    (usdCost : ℚ) : Store × Except DeductError TokenBalance :=
  let balance := (getBalance st walletAddress).1
  let st1 := (getBalance st walletAddress).2
  if balance.currentBalance < amount then
    (st1, .error .insufficientBalance)
  else
    let balance' : TokenBalance :=
      { balance with
        consumedAmount := balance.consumedAmount + amount
        currentBalance := balance.currentBalance - amount
        transactions := balance.transactions ++
          [⟨EntryType.usage, -amount, none, now, some (requestType, usdCost)⟩] }
    let st2 := saveWallet st1 balance'
    match getTWAPPrice o now with
    | .error _ => (st2, .error .noPriceData)
    | .ok tokenPrice =>
        let record : UsageRecord :=
          ⟨st2.nextId, walletAddress, requestType, usdCost, tokenPrice,
            amount, now, false, none⟩
        ({ st2 with
            usageRecords := st2.usageRecords ++ [record]
            nextId := st2.nextId + 1 },
          .ok balance')

/-- `BalanceTrackerService.getUnsettledRecords`: unsettled records sorted by
timestamp ascending (oldest first), capped at `limit`. -/
def getUnsettledRecords (st : Store) (limit : ℕ) : List UsageRecord :=
  ((st.usageRecords.filter (fun r => !r.settled)).insertionSort
    (fun a b => a.timestamp ≤ b.timestamp)).take limit

/-- `BalanceTrackerService.markAsSettled`: `updateMany` setting
`settled := true` and the settlement `txHash` on every record whose id is in
`recordIds`. -/
def markAsSettled (st : Store) (recordIds : List ℕ) (txHash : String) : Store :=
  { st with usageRecords :=
      st.usageRecords.map (fun r =>
        if r.id ∈ recordIds then { r with settled := true, txHash := some txHash }
        else r) }

/-- Failure of the on-chain settlement transaction (wallet not loaded, mint or
treasury unconfigured, insufficient custodial balance, or submission or
confirmation failure — everything `executeOnChainSettlement` can throw). -/
inductive ChainError where
  | walletNotLoaded
  | mintNotConfigured
  | treasuryNotConfigured
  | insufficientBackendBalance
  | submissionFailed
  deriving Repr, DecidableEq

/-- `SettlementService` mutable state: the `isSettling` mutual-exclusion flag
plus the database the settlement run reads and writes. -/
structure SettlementState where
  isSettling : Bool
  store : Store
  deriving Repr, DecidableEq

/-- Outcome of one `executeBatchSettlement` call. -/
inductive SettleOutcome where
  | skipped
  | emptyBatch
  | committed (signature : String) (burnAmount treasuryAmount : ℚ)
  | failed (e : ChainError)
  deriving Repr, DecidableEq

/-- `SettlementService.executeBatchSettlement`.  The whole of
`executeOnChainSettlement` (precondition checks, transaction construction,
signing, submission, confirmation) is abstracted as the injected `chain`
function from the burn and treasury amounts to a confirmed signature or a
thrown error.  If already settling: immediate no-op.  Otherwise: fetch up to
100 unsettled records; sum `tokensBurned`; split 50/50; submit; on success
mark exactly the fetched record ids settled with the returned signature; on
failure rethrow without marking anything; the `isSettling` flag is cleared in
a `finally` on every one of those paths. -/
def executeBatchSettlement (chain : ℚ → ℚ → Except ChainError String)
    (s : SettlementState) : SettlementState × SettleOutcome :=
  if s.isSettling then (s, .skipped)
  else
    let unsettledRecords := getUnsettledRecords s.store 100
    if unsettledRecords.isEmpty then
      ({ s with isSettling := false }, .emptyBatch)
    else
      let totalTokens := unsettledRecords.foldl (fun sum r => sum + r.tokensBurned) 0
      let burnAmount := totalTokens / 2
      let treasuryAmount := totalTokens / 2
      match chain burnAmount treasuryAmount with
      | .error e => ({ s with isSettling := false }, .failed e)
      | .ok txHash =>
          let recordIds := unsettledRecords.map (fun r => r.id)
          ({ isSettling := false
             store := markAsSettled s.store recordIds txHash },
            .committed txHash burnAmount treasuryAmount)

/-- `SettlementService.checkAndSettleIfNeeded`: sums `tokensBurned` over
`getUnsettledRecords(1000)` and triggers `executeBatchSettlement` exactly when
that sum reaches the threshold; a thrown settlement error propagates. -/
def checkAndSettleIfNeeded (chain : ℚ → ℚ → Except ChainError String)
    (s : SettlementState) (threshold : ℚ) :
    SettlementState × Except ChainError Bool :=
  let unsettledRecords := getUnsettledRecords s.store 1000
  let pendingAmount := unsettledRecords.foldl (fun sum r => sum + r.tokensBurned) 0
  if threshold ≤ pendingAmount then
    match executeBatchSettlement chain s with
    | (s', .failed e) => (s', .error e)
    | (s', _) => (s', .ok true)
  else (s, .ok false)

/-- JavaScript `a || b` on possibly-absent strings: the empty string is falsy. -/
def strOr (a b : Option String) : Option String :=
  match a with
  | some s => if s = "" then b else some s
  | none => b

/-- JavaScript `a || b` on possibly-absent numbers: `0` is falsy. -/
def numOr (a b : Option ℚ) : Option ℚ :=
  match a with
  | some x => if x = 0 then b else some x
  | none => b

/-- The SPL token program id (`TOKEN_PROGRAM_ID`). -/
def tokenProgramId : String := "TokenkegQfeZyiNwAJbNbGKPFXCWuBvf9Ss623VQ5DA"

/-- `tokenAmount` sub-object of a parsed transfer instruction. -/
structure TokenAmountInfo where
  amount : Option ℚ
  decimals : Option ℕ
  deriving Repr, DecidableEq

/-- The `parsed.info` payload of a parsed token instruction.  Fields that the
verifier touches; each may be absent in the provider's response. -/
structure ParsedInfo where
  destination : Option String
  toField : Option String
  amountField : Option ℚ
  tokenAmount : Option TokenAmountInfo
  mint : Option String
  mintAccount : Option String
  authority : Option String
  ownerField : Option String
  sourceField : Option String
  deriving Repr, DecidableEq

/-- One instruction of the fetched parsed transaction; `parsed` holds the
instruction type string and its info when the provider decoded it. -/
structure ParsedInstruction where
  programId : String
  parsed : Option (String × ParsedInfo)
  deriving Repr, DecidableEq

/-- One entry of `meta.preTokenBalances` / `meta.postTokenBalances`. -/
structure TokenBalanceSnapshot where
  accountIndex : ℕ
  owner : Option String
  mint : String
  uiAmount : Option ℚ
  deriving Repr, DecidableEq

/-- The `meta` object of a fetched transaction. -/
structure ParsedTxMeta where
  err : Bool
  preTokenBalances : Option (List TokenBalanceSnapshot)
  postTokenBalances : Option (List TokenBalanceSnapshot)
  deriving Repr, DecidableEq

/-- A fetched `ParsedTransactionWithMeta`. -/
structure ParsedTx where
  instructions : List ParsedInstruction
  meta : Option ParsedTxMeta
  deriving Repr, DecidableEq

/-- `transaction.meta?.err` as a boolean. -/
def txHasErr (tx : ParsedTx) : Bool :=
  match tx.meta with
  | some m => m.err
  | none => false

/-- What the verifier extracts from a matching transfer: the
decimal-normalized amount, the token mint, and the transfer authority. -/
structure FoundTransfer where
  actualAmount : ℚ
  tokenMint : Option String
  transferAuthority : Option String
  deriving Repr, DecidableEq

/-- The instruction-scanning loop of `verifyDepositTransaction`: the first
token-program `transfer`/`transferChecked` instruction whose destination (or
`to`) equals the normalized expected recipient.  The raw amount is
`info.amount || info.tokenAmount?.amount || 0`, normalized by
`info.tokenAmount?.decimals || 9`; the mint is `info.mint || info.mintAccount
|| null`; the authority is `info.authority ?? info.owner ?? info.source ??
null`. -/
def findTransferInstr (recipientStr : String) :
    List ParsedInstruction → Option FoundTransfer
  | [] => none
  | instr :: rest =>
      match instr.parsed with
      | some (ptype, info) =>
          if instr.programId = tokenProgramId
              ∧ (ptype = "transfer" ∨ ptype = "transferChecked")
              ∧ strOr info.destination info.toField = some recipientStr then
            let rawAmount :=
              (numOr info.amountField (info.tokenAmount.bind (fun t => t.amount))).getD 0
            let decimals : ℕ :=
              match info.tokenAmount.bind (fun t => t.decimals) with
              | some d => if d = 0 then 9 else d
              | none => 9
            some ⟨rawAmount / ((10 : ℚ) ^ decimals),
              strOr info.mint info.mintAccount,
              (info.authority.orElse (fun _ => info.ownerField)).orElse
                (fun _ => info.sourceField)⟩
          else findTransferInstr recipientStr rest
      | none => findTransferInstr recipientStr rest

/-- The pre/post token-balance fallback of `verifyDepositTransaction`: the
first post-balance whose owner equals the raw expected recipient; the amount
is the post minus pre `uiAmount` (absent values read as 0); the authority
cannot be determined on this path. -/
def findSnapshotTransfer (expectedRecipient : String) (meta : ParsedTxMeta) :
    Option FoundTransfer :=
  match meta.postTokenBalances with
  | none => none
  | some posts =>
      match posts.find? (fun b => b.owner = some expectedRecipient) with
      | none => none
      | some b =>
          let preBalance : ℚ :=
            match meta.preTokenBalances with
            | none => 0
            | some pres =>
                (((pres.find? (fun p => p.accountIndex = b.accountIndex)).bind
                  (fun p => p.uiAmount)).getD 0)
          let postBalance : ℚ := b.uiAmount.getD 0
          some ⟨postBalance - preBalance,
            (if b.mint = "" then none else some b.mint), none⟩

/-- Instruction scan first, balance-snapshot fallback only when the scan found
nothing. -/
def transferLookup (recipientStr expectedRecipient : String) (tx : ParsedTx) :
    Option FoundTransfer :=
  match findTransferInstr recipientStr tx.instructions with
  | some f => some f
  | none => tx.meta.bind (findSnapshotTransfer expectedRecipient)

/-- The verifier's failure reasons. -/
inductive VerifyError where
  | txNotFound
  | txExecutionFailed
  | noTransferFound
  | senderUnknown
  | senderMismatch
  | mintMismatch
  | amountMismatch
  | caught (msg : String)
  deriving Repr, DecidableEq

/-- The `{isValid, actualAmount?, error?}` result object. -/
structure VerifyResult where
  isValid : Bool
  actualAmount : Option ℚ
  error : Option VerifyError
  deriving Repr, DecidableEq

/-- An `isValid=false` result with the given reason. -/
def invalidResult (e : VerifyError) : VerifyResult := ⟨false, none, some e⟩

/-- The fixed amount tolerance (`0.0001`). -/
def amountTolerance : ℚ := 1 / 10000

/-- The sender check of `verifyDepositTransaction` (skipped when
`expectedSender` is absent or empty, per JS truthiness): `senderUnknown` when
the transfer authority could not be determined, `senderMismatch` when it
differs. -/
def senderFailure (expectedSender : Option String) (f : FoundTransfer) :
    Option VerifyError :=
  match expectedSender with
  | some s =>
      if s = "" then none
      else
        match f.transferAuthority with
        | none => some .senderUnknown
        | some a => if a = s then none else some .senderMismatch
  | none => none

/-- `expectedTokenMint && tokenMint !== expectedTokenMint`. -/
def mintFails (expectedTokenMint : Option String) (f : FoundTransfer) : Bool :=
  match expectedTokenMint with
  | some m => if m = "" then false else decide (f.tokenMint ≠ some m)
  | none => false

/-- `expectedAmount !== undefined && |actual - expected| > tolerance`. -/
def amountFails (expectedAmount : Option ℚ) (f : FoundTransfer) : Bool :=
  match expectedAmount with
  | some a => decide (amountTolerance < |f.actualAmount - a|)
  | none => false

/-- The sender / mint / amount checks of `verifyDepositTransaction`, applied
in source order to the found transfer. -/
def verifyChecks (f : FoundTransfer) (expectedAmount : Option ℚ)
    (expectedTokenMint : Option String) (expectedSender : Option String) :
    VerifyResult :=
  match senderFailure expectedSender f with
  | some e => invalidResult e
  | none =>
      if mintFails expectedTokenMint f then invalidResult .mintMismatch
      else if amountFails expectedAmount f then invalidResult .amountMismatch
      else ⟨true, some f.actualAmount, none⟩

/-- The body of `verifyDepositTransaction` before its `catch`: the RPC fetch
(`connection.getParsedTransaction`) and the base58 parse of the expected
recipient (`new PublicKey(...)`, then `.toString()`) are injected fallible
functions whose `.error` models a thrown exception. -/
def verifyDepositCore (fetchTx : String → Except String (Option ParsedTx))
    (parseKey : String → Except String String) (txHash expectedRecipient : String)
    (expectedAmount : Option ℚ) (expectedTokenMint : Option String)
    (expectedSender : Option String) : Except String VerifyResult :=
  match fetchTx txHash with
  | .error e => .error e
  | .ok none => .ok (invalidResult .txNotFound)
  | .ok (some tx) =>
      if txHasErr tx then .ok (invalidResult .txExecutionFailed)
      else
        match parseKey expectedRecipient with
        | .error e => .error e
        | .ok recipientStr =>
            match transferLookup recipientStr expectedRecipient tx with
            | none => .ok (invalidResult .noTransferFound)
            | some f => .ok (verifyChecks f expectedAmount expectedTokenMint expectedSender)

/-- `TransactionVerifierService.verifyDepositTransaction`: the whole body runs
under a `try`/`catch` that converts any thrown exception into an
`isValid=false` result. -/
def verifyDepositTransaction (fetchTx : String → Except String (Option ParsedTx))
    (parseKey : String → Except String String) (txHash expectedRecipient : String)
    (expectedAmount : Option ℚ) (expectedTokenMint : Option String)
    (expectedSender : Option String) : VerifyResult :=
  match verifyDepositCore fetchTx parseKey txHash expectedRecipient
      expectedAmount expectedTokenMint expectedSender with
  | .ok r => r
  | .error msg => ⟨false, none, some (.caught msg)⟩

/-- Result of the `POST /api/token/deposit` route handler. -/
inductive DepositRouteResult where
  | missingFields
  | verificationFailed
  | duplicateTransaction
  | success (currentBalance depositedAmount : ℚ)
  deriving Repr, DecidableEq

/-- `TokenBalance.findOne({ 'transactions.txHash': txHash })`: does the hash
already appear in any wallet's entry log? -/
def txHashExists (st : Store) (txHash : String) : Bool :=
  st.wallets.any (fun w => w.transactions.any (fun t => t.txHash = some txHash))

/-- The deposit route (`router.post('/deposit')` in token.routes.ts): field
presence check, on-chain verification (its result injected), then the
duplicate-txHash check against every wallet's transaction log, and only then
`recordDeposit` with the verifier's amount (`verification.actualAmount ||
parseFloat(amount)`). -/
def depositRoute (st : Store) (walletAddress : String) (amount : ℚ)
    (txHash : String) (verification : VerifyResult) (now : ℤ) :
    Store × DepositRouteResult :=
  if walletAddress = "" ∨ amount = 0 ∨ txHash = "" then (st, .missingFields)
  else if !verification.isValid then (st, .verificationFailed)
  else if txHashExists st txHash then (st, .duplicateTransaction)
  else
    let verifiedAmount := (numOr verification.actualAmount (some amount)).getD amount
    let balance := (recordDeposit st walletAddress verifiedAmount txHash now).1
    let st' := (recordDeposit st walletAddress verifiedAmount txHash now).2
    (st', .success balance.currentBalance balance.depositedAmount)

/-- One completed Balance Ledger operation, for reasoning about arbitrary
operation sequences. -/
inductive LedgerOp where
  | getBalanceOp (walletAddress : String)
  | depositOp (walletAddress : String) (amount : ℚ) (txHash : String) (now : ℤ)
  | deductOp (walletAddress : String) (amount : ℚ) (requestType : RequestType)
      (usdCost : ℚ) (now : ℤ)

/-- The store after running one operation to completion (return values and
thrown errors discarded; all persisted writes kept). -/
def applyOp (o : PriceOracleState) (st : Store) : LedgerOp → Store
  | .getBalanceOp a => (getBalance st a).2
  | .depositOp a amt tx now => (recordDeposit st a amt tx now).2
  | .deductOp a amt rt usd now => (deductTokens o now st a amt rt usd).1

/-- The store after a sequence of completed operations. -/
def runOps (o : PriceOracleState) (st : Store) : List LedgerOp → Store
  | [] => st
  | op :: rest => runOps o (applyOp o st op) rest

/-- The per-wallet balance invariant of the spec data model. -/
def WalletInv (w : TokenBalance) : Prop :=
  w.currentBalance = w.depositedAmount - w.consumedAmount ∧ 0 ≤ w.currentBalance

/-- Every stored wallet satisfies the balance invariant. -/
def StoreInv (st : Store) : Prop := ∀ w ∈ st.wallets, WalletInv w

/-- Deposited amounts are nonnegative (the schema enforces `min: 0` on the
wallet amounts, and the route credits an on-chain-verified amount). -/
def depositNonneg : LedgerOp → Prop
  | .depositOp _ amt _ _ => 0 ≤ amt
  | _ => True

lemma saveWallet_inv {st : Store} {w : TokenBalance} (h : StoreInv st)
    (hw : WalletInv w) : StoreInv (saveWallet st w) := by
  unfold saveWallet
  split
  · intro x hx
    simp only [List.mem_map] at hx
    obtain ⟨y, hy, hxy⟩ := hx
    by_cases hc : y.walletAddress = w.walletAddress
    · simp [hc] at hxy; exact hxy ▸ hw
    · simp [hc] at hxy; exact hxy ▸ h y hy
  · intro x hx
    simp only [List.mem_append, List.mem_singleton] at hx
    rcases hx with hx | hx
    · exact h x hx
    · exact hx ▸ hw

lemma zero_wallet_inv (a : String) : WalletInv ⟨a, 0, 0, 0, []⟩ := by
  constructor <;> norm_num [WalletInv]

lemma getBalance_fst_inv {st : Store} (h : StoreInv st) (a : String) :
    WalletInv (getBalance st a).1 := by
  unfold getBalance
  cases hfind : findWallet st a with
  | none => exact zero_wallet_inv a
  | some b =>
      exact h b (List.mem_of_find?_eq_some hfind)

lemma getBalance_snd_inv {st : Store} (h : StoreInv st) (a : String) :
    StoreInv (getBalance st a).2 := by
  unfold getBalance
  cases hfind : findWallet st a with
  | none => exact saveWallet_inv h (zero_wallet_inv a)
  | some b => exact h

lemma walletInv_deposit_update {b : TokenBalance} (hb : WalletInv b) {amt : ℚ}
    (hamt : 0 ≤ amt) (tx : String) (now : ℤ) :
    WalletInv { b with
      depositedAmount := b.depositedAmount + amt
      currentBalance := b.currentBalance + amt
      transactions := b.transactions ++
        [⟨EntryType.deposit, amt, some tx, now, none⟩] } := by
  obtain ⟨heq, hpos⟩ := hb
  refine ⟨?_, ?_⟩
  · show b.currentBalance + amt = b.depositedAmount + amt - b.consumedAmount
    rw [heq]; ring
  · show (0 : ℚ) ≤ b.currentBalance + amt
    exact add_nonneg hpos hamt

lemma walletInv_deduct_update {b : TokenBalance} (hb : WalletInv b) {amt : ℚ}
    (hle : amt ≤ b.currentBalance) (rt : RequestType) (usd : ℚ) (now : ℤ) :
    WalletInv { b with
      consumedAmount := b.consumedAmount + amt
      currentBalance := b.currentBalance - amt
      transactions := b.transactions ++
        [⟨EntryType.usage, -amt, none, now, some (rt, usd)⟩] } := by
  obtain ⟨heq, _⟩ := hb
  refine ⟨?_, ?_⟩
  · show b.currentBalance - amt = b.depositedAmount - (b.consumedAmount + amt)
    rw [heq]; ring
  · show (0 : ℚ) ≤ b.currentBalance - amt
    exact sub_nonneg.mpr hle

lemma recordDeposit_snd_inv {st : Store} {a : String} {amt : ℚ} {tx : String}
    {now : ℤ} (h : StoreInv st) (hamt : 0 ≤ amt) :
    StoreInv (recordDeposit st a amt tx now).2 := by
  simp only [recordDeposit]
  exact saveWallet_inv (getBalance_snd_inv h a)
    (walletInv_deposit_update (getBalance_fst_inv h a) hamt tx now)

lemma deductTokens_fst_inv {o : PriceOracleState} {now : ℤ} {st : Store}
    {a : String} {amt : ℚ} {rt : RequestType} {usd : ℚ} (h : StoreInv st) :
    StoreInv (deductTokens o now st a amt rt usd).1 := by
  simp only [deductTokens]
  split
  · exact getBalance_snd_inv h a
  · rename_i hguard
    have hle : amt ≤ (getBalance st a).1.currentBalance := le_of_not_lt hguard
    have hsave := saveWallet_inv (getBalance_snd_inv h a)
      (walletInv_deduct_update (getBalance_fst_inv h a) hle rt usd now)
    split
    · exact fun w hw => hsave w hw
    · exact fun w hw => hsave w hw

lemma applyOp_inv {o : PriceOracleState} {st : Store} {op : LedgerOp}
    (h : StoreInv st) (hop : depositNonneg op) : StoreInv (applyOp o st op) := by
  cases op with
  | getBalanceOp a => exact getBalance_snd_inv h a
  | depositOp a amt tx now => exact recordDeposit_snd_inv h hop
  | deductOp a amt rt usd now => exact deductTokens_fst_inv h

lemma runOps_inv {o : PriceOracleState} {ops : List LedgerOp} :
    ∀ {st : Store}, StoreInv st → (∀ op ∈ ops, depositNonneg op) →
      StoreInv (runOps o st ops) := by
  induction ops with
  | nil => intro st h _; exact h
  | cons op rest ih =>
      intro st h hops
      have h1 : depositNonneg op := hops op (List.mem_cons_self op rest)
      have h2 : ∀ op' ∈ rest, depositNonneg op' :=
        fun op' hmem => hops op' (List.mem_cons_of_mem op hmem)
      exact ih (applyOp_inv h h1) h2

lemma getBalance_fst_walletAddress (st : Store) (a : String) :
    (getBalance st a).1.walletAddress = a := by
  unfold getBalance
  cases hfind : findWallet st a with
  | none => rfl
  | some b =>
      unfold findWallet at hfind
      have hp := List.find?_some hfind
      simpa using hp

lemma saveWallet_usageRecords (st : Store) (w : TokenBalance) :
    (saveWallet st w).usageRecords = st.usageRecords := by
  unfold saveWallet; split <;> rfl

lemma saveWallet_nextId (st : Store) (w : TokenBalance) :
    (saveWallet st w).nextId = st.nextId := by
  unfold saveWallet; split <;> rfl

lemma getBalance_snd_usageRecords (st : Store) (a : String) :
    (getBalance st a).2.usageRecords = st.usageRecords := by
  unfold getBalance
  cases hfind : findWallet st a with
  | none => simp [saveWallet_usageRecords]
  | some b => rfl

lemma getBalance_snd_nextId (st : Store) (a : String) :
    (getBalance st a).2.nextId = st.nextId := by
  unfold getBalance
  cases hfind : findWallet st a with
  | none => simp [saveWallet_nextId]
  | some b => rfl

lemma getBalance_found {st : Store} {a : String} {b : TokenBalance}
    (hfind : findWallet st a = some b) : getBalance st a = (b, st) := by
  unfold getBalance; rw [hfind]

lemma saveWallet_mem_eq {st : Store} {w : TokenBalance} :
    ∀ x ∈ (saveWallet st w).wallets, x.walletAddress = w.walletAddress → x = w := by
  unfold saveWallet
  split
  · intro x hx haddr
    simp only [List.mem_map] at hx
    obtain ⟨y, hy, hxy⟩ := hx
    by_cases hc : y.walletAddress = w.walletAddress
    · simp [hc] at hxy; exact hxy.symm
    · simp [hc] at hxy; exact absurd (hxy ▸ haddr) hc
  · rename_i hany
    intro x hx haddr
    simp only [List.mem_append, List.mem_singleton] at hx
    rcases hx with hx | hx
    · exfalso
      exact hany (by simpa [List.any_eq_true] using ⟨x, hx, haddr⟩)
    · exact hx

/-- C1: after any sequence of completed `getBalance` / `recordDeposit` /
`deductTokens` operations (with nonnegative deposit amounts, as the schema's
`min: 0` constraints require), every stored wallet satisfies
`currentBalance = depositedAmount - consumedAmount` and
`0 ≤ currentBalance`; and a freshly created wallet record has
`depositedAmount`, `consumedAmount` and `currentBalance` all zero. -/
theorem wallet_balance_invariant (o : PriceOracleState) (st : Store)
    (ops : List LedgerOp) (hst : StoreInv st)
    (hops : ∀ op ∈ ops, depositNonneg op) :
    StoreInv (runOps o st ops) ∧
    (∀ addr, findWallet st addr = none →
      (getBalance st addr).1.depositedAmount = 0 ∧
      (getBalance st addr).1.consumedAmount = 0 ∧
      (getBalance st addr).1.currentBalance = 0) := by
  constructor
  · exact runOps_inv hst hops
  · intro addr hnone
    simp [getBalance, hnone]

/-- Witness for C1 at a concrete two-operation run from the empty store. -/
theorem wallet_balance_invariant_witness :
    StoreInv (runOps ⟨[⟨1, 0⟩], 10, 5/100, 50⟩ Store.empty
      [.depositOp "W" 5 "T1" 0, .deductOp "W" 1 .chat (2/100) 1]) ∧
    (∀ addr, findWallet Store.empty addr = none →
      (getBalance Store.empty addr).1.depositedAmount = 0 ∧
      (getBalance Store.empty addr).1.consumedAmount = 0 ∧
      (getBalance Store.empty addr).1.currentBalance = 0) :=
  wallet_balance_invariant ⟨[⟨1, 0⟩], 10, 5/100, 50⟩ Store.empty
    [.depositOp "W" 5 "T1" 0, .deductOp "W" 1 .chat (2/100) 1]
    (by intro w hw; simp [Store.empty] at hw)
    (by intro op hop
        simp only [List.mem_cons, List.mem_singleton] at hop
        rcases hop with h | h | h <;> first
          | (subst h; norm_num [depositNonneg])
          | simp at h)


/-- C3: `deductTokens` throws `InsufficientBalance` exactly when the wallet's
`currentBalance` is below the requested amount; on that failure nothing is
debited, no entry is appended and no `UsageRecord` is created (an existing
wallet leaves the store completely untouched); once the guard passes the
wallet is debited by exactly the amount, one negative `usage` entry is
appended, and the resulting balance never drops below zero; on success one
unsettled `UsageRecord` is inserted capturing the oracle's TWAP price at that
instant. -/
theorem deductTokens_spec (o : PriceOracleState) (now : ℤ) (st : Store)
    (a : String) (amt : ℚ) (rt : RequestType) (usd : ℚ) :
    ((deductTokens o now st a amt rt usd).2 = .error .insufficientBalance ↔
      (getBalance st a).1.currentBalance < amt) ∧
    ((getBalance st a).1.currentBalance < amt →
      (deductTokens o now st a amt rt usd).1 = (getBalance st a).2 ∧
      (deductTokens o now st a amt rt usd).1.usageRecords = st.usageRecords) ∧
    (∀ b, findWallet st a = some b → b.currentBalance < amt →
      (deductTokens o now st a amt rt usd).1 = st) ∧
    (¬ (getBalance st a).1.currentBalance < amt →
      ∀ w ∈ (deductTokens o now st a amt rt usd).1.wallets, w.walletAddress = a →
        w.consumedAmount = (getBalance st a).1.consumedAmount + amt ∧
        w.currentBalance = (getBalance st a).1.currentBalance - amt ∧
        0 ≤ w.currentBalance ∧
        w.transactions = (getBalance st a).1.transactions ++
          [⟨EntryType.usage, -amt, none, now, some (rt, usd)⟩]) ∧
    (∀ b', (deductTokens o now st a amt rt usd).2 = .ok b' →
      ∃ price, getTWAPPrice o now = .ok price ∧
        (deductTokens o now st a amt rt usd).1.usageRecords =
          st.usageRecords ++
            [⟨st.nextId, a, rt, usd, price, amt, now, false, none⟩] ∧
        b'.currentBalance = (getBalance st a).1.currentBalance - amt ∧
        b'.consumedAmount = (getBalance st a).1.consumedAmount + amt) := by
  by_cases hlt : (getBalance st a).1.currentBalance < amt
  · refine ⟨?_, ?_, ?_, ?_, ?_⟩
    · simp [deductTokens, hlt]
    · intro _
      refine ⟨by simp [deductTokens, hlt], ?_⟩
      simp [deductTokens, hlt, getBalance_snd_usageRecords]
    · intro b hfind hblt
      simp [deductTokens, getBalance_found hfind, hblt]
    · exact fun hc => absurd hlt hc
    · intro b' hok
      simp [deductTokens, hlt] at hok
  · have hle : amt ≤ (getBalance st a).1.currentBalance := le_of_not_lt hlt
    refine ⟨?_, fun hc => absurd hc hlt, fun b hfind hblt => ?_, ?_, ?_⟩
    · constructor
      · intro herr
        exfalso
        cases htw : getTWAPPrice o now with
        | error e => simp [deductTokens, hlt, htw] at herr
        | ok p => simp [deductTokens, hlt, htw] at herr
      · intro hc; exact absurd hc hlt
    · exfalso
      have : (getBalance st a).1.currentBalance < amt := by
        rw [getBalance_found hfind]; exact hblt
      exact hlt this
    · intro _ w hw haddr
      have haddr' : w.walletAddress =
          ({ (getBalance st a).1 with
              consumedAmount := (getBalance st a).1.consumedAmount + amt
              currentBalance := (getBalance st a).1.currentBalance - amt
              transactions := (getBalance st a).1.transactions ++
                [⟨EntryType.usage, -amt, none, now, some (rt, usd)⟩] } :
            TokenBalance).walletAddress := by
        show w.walletAddress = (getBalance st a).1.walletAddress
        rw [haddr, getBalance_fst_walletAddress]
      have hw' : w ∈ (saveWallet (getBalance st a).2
          { (getBalance st a).1 with
            consumedAmount := (getBalance st a).1.consumedAmount + amt
            currentBalance := (getBalance st a).1.currentBalance - amt
            transactions := (getBalance st a).1.transactions ++
              [⟨EntryType.usage, -amt, none, now, some (rt, usd)⟩] }).wallets := by
        cases htw : getTWAPPrice o now with
        | error e => simpa [deductTokens, hlt, htw] using hw
        | ok p => simpa [deductTokens, hlt, htw] using hw
      have := saveWallet_mem_eq w hw' haddr'
      subst this
      refine ⟨rfl, rfl, ?_, rfl⟩
      show (0 : ℚ) ≤ (getBalance st a).1.currentBalance - amt
      exact sub_nonneg.mpr hle
    · intro b' hok
      cases htw : getTWAPPrice o now with
      | error e => simp [deductTokens, hlt, htw] at hok
      | ok p =>
          refine ⟨p, rfl, ?_, ?_, ?_⟩
          · simp [deductTokens, hlt, htw, saveWallet_usageRecords,
              getBalance_snd_usageRecords, saveWallet_nextId, getBalance_snd_nextId]
          · have hb' : b' = { (getBalance st a).1 with
                consumedAmount := (getBalance st a).1.consumedAmount + amt
                currentBalance := (getBalance st a).1.currentBalance - amt
                transactions := (getBalance st a).1.transactions ++
                  [⟨EntryType.usage, -amt, none, now, some (rt, usd)⟩] } := by
              simp [deductTokens, hlt, htw] at hok
              exact hok.symm
            rw [hb']
          · have hb' : b' = { (getBalance st a).1 with
                consumedAmount := (getBalance st a).1.consumedAmount + amt
                currentBalance := (getBalance st a).1.currentBalance - amt
                transactions := (getBalance st a).1.transactions ++
                  [⟨EntryType.usage, -amt, none, now, some (rt, usd)⟩] } := by
              simp [deductTokens, hlt, htw] at hok
              exact hok.symm
            rw [hb']

lemma saveWallet_mem_self (st : Store) (w : TokenBalance) :
    w ∈ (saveWallet st w).wallets := by
  unfold saveWallet
  split
  · rename_i hany
    simp only [List.any_eq_true, decide_eq_true_eq] at hany
    obtain ⟨y, hy, hyaddr⟩ := hany
    simp only [List.mem_map]
    exact ⟨y, hy, by simp [hyaddr]⟩
  · simp

lemma recordDeposit_txHashExists (st : Store) (w : String) (amt : ℚ)
    (tx : String) (now : ℤ) :
    txHashExists (recordDeposit st w amt tx now).2 tx = true := by
  unfold txHashExists recordDeposit
  simp only [List.any_eq_true, decide_eq_true_eq]
  refine ⟨_, saveWallet_mem_self _ _, ?_⟩
  simp only [List.any_eq_true, List.mem_append, List.mem_singleton,
    decide_eq_true_eq]
  exact ⟨_, Or.inr rfl, rfl⟩

/-- C2 counterexample: `recordDeposit` itself never rejects a replayed
`txHash` — depositing 5 twice with the same hash credits the wallet twice
(`depositedAmount` and `currentBalance` end at 10, not 5), and the second
call returns normally instead of failing with `DuplicateTransaction`. -/
theorem recordDeposit_replay_credits_twice :
    (recordDeposit (recordDeposit Store.empty "W" 5 "T1" 0).2 "W" 5 "T1" 1).1.depositedAmount
        = 10 ∧
    (recordDeposit (recordDeposit Store.empty "W" 5 "T1" 0).2 "W" 5 "T1" 1).1.currentBalance
        = 10 := by
  constructor <;>
    norm_num [recordDeposit, getBalance, findWallet, saveWallet, Store.empty]

/-- C2 amended: the duplicate-`txHash` check is performed by the deposit HTTP
route, not by `recordDeposit`.  Given non-empty fields and a passing on-chain
verification, the route rejects a hash that already appears in any wallet's
transaction log, leaving the store untouched, and replaying the same hash
through the route a second time is always rejected, so the endpoint credits a
hash at most once. -/
theorem deposit_route_duplicate_rejected (st : Store) (w : String) (amt : ℚ)
    (tx : String) (v : VerifyResult) (now : ℤ)
    (hw : w ≠ "") (hamt : amt ≠ 0) (htx : tx ≠ "") (hv : v.isValid = true) :
    (txHashExists st tx = true →
      depositRoute st w amt tx v now = (st, .duplicateTransaction)) ∧
    (∀ amt2 : ℚ, ∀ v2 : VerifyResult, ∀ now2 : ℤ, amt2 ≠ 0 → v2.isValid = true →
      depositRoute (depositRoute st w amt tx v now).1 w amt2 tx v2 now2 =
        ((depositRoute st w amt tx v now).1, .duplicateTransaction)) := by
  constructor
  · intro hdup
    simp [depositRoute, hw, hamt, htx, hv, hdup]
  · intro amt2 v2 now2 hamt2 hv2
    set st1 := (depositRoute st w amt tx v now).1 with hst1
    have hex : txHashExists st1 tx = true := by
      rw [hst1]
      cases hdup : txHashExists st tx with
      | true =>
          have heq : depositRoute st w amt tx v now = (st, .duplicateTransaction) := by
            simp [depositRoute, hw, hamt, htx, hv, hdup]
          rw [heq]; exact hdup
      | false =>
          have heq : (depositRoute st w amt tx v now).1 =
              (recordDeposit st w ((numOr v.actualAmount (some amt)).getD amt)
                tx now).2 := by
            simp [depositRoute, hw, hamt, htx, hv, hdup]
          rw [heq]
          exact recordDeposit_txHashExists _ _ _ _ _
    clear_value st1
    simp [depositRoute, hw, hamt2, htx, hv2, hex]

/-- Witness for the amended C2 at a concrete replay from the empty store. -/
theorem deposit_route_duplicate_rejected_witness :
    depositRoute (depositRoute Store.empty "W" 5 "T1" ⟨true, some 5, none⟩ 0).1
        "W" 5 "T1" ⟨true, some 5, none⟩ 1 =
      ((depositRoute Store.empty "W" 5 "T1" ⟨true, some 5, none⟩ 0).1,
        .duplicateTransaction) :=
  (deposit_route_duplicate_rejected Store.empty "W" 5 "T1" ⟨true, some 5, none⟩ 0
    (by decide) (by norm_num) (by decide) rfl).2 5 ⟨true, some 5, none⟩ 1
    (by norm_num) rfl

/-- C5: the `isSettling` guard.  A call that finds the flag set returns
immediately with the state untouched, independently of the chain (no records
read, no transaction submitted, nothing mutated); and whenever a run actually
starts, the flag is false again on every exit path (empty batch, commit, or
failure), so the next call can proceed. -/
theorem settlement_guard (chain : ℚ → ℚ → Except ChainError String)
    (s : SettlementState) :
    (s.isSettling = true →
      executeBatchSettlement chain s = (s, .skipped) ∧
      ∀ chain2, executeBatchSettlement chain2 s = executeBatchSettlement chain s) ∧
    (s.isSettling = false →
      (executeBatchSettlement chain s).1.isSettling = false) := by
  constructor
  · intro h
    constructor
    · simp [executeBatchSettlement, h]
    · intro chain2
      simp [executeBatchSettlement, h]
  · intro h
    simp only [executeBatchSettlement, h]
    simp only [Bool.false_eq_true, if_false]
    split
    · rfl
    · split
      · rfl
      · rfl

/-- Witness for C5: a guarded call no-ops; an unguarded call on the empty
store exits with the flag cleared. -/
theorem settlement_guard_witness :
    executeBatchSettlement (fun _ _ => .ok "SIG") ⟨true, Store.empty⟩ =
      (⟨true, Store.empty⟩, .skipped) ∧
    (executeBatchSettlement (fun _ _ => .ok "SIG")
      ⟨false, Store.empty⟩).1.isSettling = false :=
  ⟨((settlement_guard (fun _ _ => .ok "SIG") ⟨true, Store.empty⟩).1 rfl).1,
    (settlement_guard (fun _ _ => .ok "SIG") ⟨false, Store.empty⟩).2 rfl⟩

/-- The sum of `tokensBurned` over the batch a settlement run fetches. -/
def settlementTotal (st : Store) : ℚ :=
  ((getUnsettledRecords st 100).map (fun r => r.tokensBurned)).sum

lemma foldl_tokensBurned (l : List UsageRecord) (acc : ℚ) :
    l.foldl (fun sum r => sum + r.tokensBurned) acc =
      acc + (l.map (fun r => r.tokensBurned)).sum := by
  induction l generalizing acc with
  | nil => simp
  | cons r rest ih => simp [ih]; ring

lemma getUnsettledRecords_mem (st : Store) (limit : ℕ) :
    ∀ r ∈ getUnsettledRecords st limit, r ∈ st.usageRecords ∧ r.settled = false := by
  intro r hr
  unfold getUnsettledRecords at hr
  have h1 : r ∈ (st.usageRecords.filter (fun x => !x.settled)).insertionSort
      (fun a b => a.timestamp ≤ b.timestamp) := List.mem_of_mem_take hr
  have h2 : r ∈ st.usageRecords.filter (fun x => !x.settled) :=
    ((List.perm_insertionSort _ _).mem_iff).mp h1
  have h3 := List.mem_filter.mp h2
  exact ⟨h3.1, by simpa using h3.2⟩

/-- C4: a settlement run that starts on a non-empty batch is all-or-nothing.
When the on-chain transaction fails (at any point, including after signing)
the error propagates and no record is touched; when it confirms with one
signature, the burn and treasury amounts submitted are each exactly half of
the batch total (summing to the whole), and exactly the fetched record ids
are marked settled with that single signature — every fetched record (all
previously unsettled) is marked, every other record is untouched. -/
theorem executeBatchSettlement_atomic (chain : ℚ → ℚ → Except ChainError String)
    (s : SettlementState) (hidle : s.isSettling = false)
    (hne : getUnsettledRecords s.store 100 ≠ []) :
    (∀ e, chain (settlementTotal s.store / 2) (settlementTotal s.store / 2) =
        .error e →
      (executeBatchSettlement chain s).1.store = s.store ∧
      (executeBatchSettlement chain s).1.isSettling = false ∧
      (executeBatchSettlement chain s).2 = .failed e) ∧
    (∀ sig, chain (settlementTotal s.store / 2) (settlementTotal s.store / 2) =
        .ok sig →
      (executeBatchSettlement chain s).2 =
        .committed sig (settlementTotal s.store / 2) (settlementTotal s.store / 2) ∧
      settlementTotal s.store / 2 + settlementTotal s.store / 2 =
        settlementTotal s.store ∧
      (executeBatchSettlement chain s).1.store.usageRecords =
        s.store.usageRecords.map (fun r =>
          if r.id ∈ (getUnsettledRecords s.store 100).map (fun x => x.id) then
            { r with settled := true, txHash := some sig }
          else r) ∧
      (∀ r ∈ getUnsettledRecords s.store 100,
        r.settled = false ∧
        { r with settled := true, txHash := some sig } ∈
          (executeBatchSettlement chain s).1.store.usageRecords) ∧
      (∀ r ∈ s.store.usageRecords,
        r.id ∉ (getUnsettledRecords s.store 100).map (fun x => x.id) →
          r ∈ (executeBatchSettlement chain s).1.store.usageRecords)) := by
  have hni : (getUnsettledRecords s.store 100).isEmpty = false := by
    simpa [List.isEmpty_iff] using hne
  have htot : (getUnsettledRecords s.store 100).foldl
      (fun sum r => sum + r.tokensBurned) 0 = settlementTotal s.store := by
    rw [foldl_tokensBurned]; simp [settlementTotal]
  constructor
  · intro e he
    simp [executeBatchSettlement, hidle, hni, htot, he]
  · intro sig hsig
    refine ⟨?_, by ring, ?_, ?_, ?_⟩
    · simp [executeBatchSettlement, hidle, hni, htot, hsig]
    · simp [executeBatchSettlement, hidle, hni, htot, hsig, markAsSettled]
    · intro r hr
      have hmem := getUnsettledRecords_mem s.store 100 r hr
      refine ⟨hmem.2, ?_⟩
      have hrecs : (executeBatchSettlement chain s).1.store.usageRecords =
          s.store.usageRecords.map (fun x =>
            if x.id ∈ (getUnsettledRecords s.store 100).map (fun y => y.id) then
              { x with settled := true, txHash := some sig }
            else x) := by
        simp [executeBatchSettlement, hidle, hni, htot, hsig, markAsSettled]
      rw [hrecs]
      have hid : r.id ∈ (getUnsettledRecords s.store 100).map (fun y => y.id) :=
        List.mem_map_of_mem (fun y => y.id) hr
      have := List.mem_map_of_mem (fun x =>
        if x.id ∈ (getUnsettledRecords s.store 100).map (fun y => y.id) then
          { x with settled := true, txHash := some sig }
        else x) hmem.1
      simpa [hid] using this
    · intro r hr hnid
      have hrecs : (executeBatchSettlement chain s).1.store.usageRecords =
          s.store.usageRecords.map (fun x =>
            if x.id ∈ (getUnsettledRecords s.store 100).map (fun y => y.id) then
              { x with settled := true, txHash := some sig }
            else x) := by
        simp [executeBatchSettlement, hidle, hni, htot, hsig, markAsSettled]
      rw [hrecs]
      have := List.mem_map_of_mem (fun x =>
        if x.id ∈ (getUnsettledRecords s.store 100).map (fun y => y.id) then
          { x with settled := true, txHash := some sig }
        else x) hr
      simpa [hnid] using this

/-- Witness for C4: a one-record batch settles with the single signature the
chain returned. -/
theorem executeBatchSettlement_atomic_witness :
    (executeBatchSettlement (fun _ _ => .ok "SIG")
        ⟨false, ⟨[], [⟨0, "W", RequestType.chat, 1/2, 2, 4, 0, false, none⟩], 1⟩⟩).2 =
      .committed "SIG"
        (settlementTotal ⟨[], [⟨0, "W", RequestType.chat, 1/2, 2, 4, 0, false, none⟩], 1⟩ / 2)
        (settlementTotal ⟨[], [⟨0, "W", RequestType.chat, 1/2, 2, 4, 0, false, none⟩], 1⟩ / 2) :=
  ((executeBatchSettlement_atomic (fun _ _ => .ok "SIG")
      ⟨false, ⟨[], [⟨0, "W", RequestType.chat, 1/2, 2, 4, 0, false, none⟩], 1⟩⟩
      rfl
      (by simp [getUnsettledRecords, List.insertionSort, List.orderedInsert])).2
    "SIG" rfl).1

lemma foldl_price (l : List PriceSample) (acc : ℚ) :
    l.foldl (fun acc s => acc + s.price) acc =
      acc + (l.map (fun s => s.price)).sum := by
  induction l generalizing acc with
  | nil => simp
  | cons s rest ih => simp [ih]; ring

/-- C7: `getTWAPPrice` fails exactly when the cache is empty; with samples in
the window it returns their arithmetic mean; with a non-empty cache but no
sample in the window it returns the most recent cached price; and on the
spec's example — $1.00, $1.10, $1.20 all within a 10-minute window — it
returns $1.10. -/
theorem getTWAPPrice_spec (o : PriceOracleState) (now : ℤ) :
    (getTWAPPrice o now = .error .noPriceData ↔ o.priceCache = []) ∧
    (∀ lastSample, o.priceCache.getLast? = some lastSample →
      o.priceCache.filter
        (fun s => now - s.timestamp ≤ o.twapWindowMinutes * 60 * 1000) = [] →
      getTWAPPrice o now = .ok lastSample.price) ∧
    (o.priceCache.filter
        (fun s => now - s.timestamp ≤ o.twapWindowMinutes * 60 * 1000) ≠ [] →
      getTWAPPrice o now = .ok
        (((o.priceCache.filter
            (fun s => now - s.timestamp ≤ o.twapWindowMinutes * 60 * 1000)).map
              (fun s => s.price)).sum /
          ((o.priceCache.filter
            (fun s => now - s.timestamp ≤ o.twapWindowMinutes * 60 * 1000)).length :
            ℚ))) ∧
    getTWAPPrice ⟨[⟨1, 0⟩, ⟨11/10, 60000⟩, ⟨12/10, 120000⟩], 10, 1/20, 50⟩ 120000
      = .ok (11/10) := by
  refine ⟨?_, ?_, ?_, ?_⟩
  · constructor
    · intro herr
      cases hlast : o.priceCache.getLast? with
      | none => exact List.getLast?_eq_none_iff.mp hlast
      | some lastSample =>
          exfalso
          simp only [getTWAPPrice, hlast] at herr
          by_cases hemp : (o.priceCache.filter
              (fun s => now - s.timestamp ≤ o.twapWindowMinutes * 60 * 1000)).isEmpty
                = true
          · rw [if_pos hemp] at herr
            exact Except.noConfusion herr
          · rw [if_neg hemp] at herr
            exact Except.noConfusion herr
    · intro hnil
      have hlast : o.priceCache.getLast? = none := by
        rw [hnil]; rfl
      simp only [getTWAPPrice, hlast]
  · intro lastSample hlast hfil
    have hemp : (o.priceCache.filter
        (fun s => now - s.timestamp ≤ o.twapWindowMinutes * 60 * 1000)).isEmpty
          = true := by
      rw [hfil]; rfl
    simp only [getTWAPPrice, hlast]
    rw [if_pos hemp]
  · intro hfil
    have hne : o.priceCache ≠ [] := by
      intro hnil
      exact hfil (by rw [hnil]; rfl)
    cases hlast : o.priceCache.getLast? with
    | none => exact absurd (List.getLast?_eq_none_iff.mp hlast) hne
    | some lastSample =>
        have hemp : (o.priceCache.filter
            (fun s => now - s.timestamp ≤ o.twapWindowMinutes * 60 * 1000)).isEmpty
              = false := List.isEmpty_eq_false.mpr hfil
        simp only [getTWAPPrice, hlast]
        rw [if_neg (by rw [hemp]; exact Bool.false_ne_true)]
        rw [foldl_price, zero_add]
  · norm_num [getTWAPPrice, List.filter, List.getLast?, List.foldl]

/-- Witness for C7: the empty cache makes `getTWAPPrice` throw `NoPriceData`. -/
theorem getTWAPPrice_spec_witness :
    getTWAPPrice ⟨[], 10, 1/20, 50⟩ 0 = .error .noPriceData :=
  (getTWAPPrice_spec ⟨[], 10, 1/20, 50⟩ 0).1.mpr rfl

/-- C6: with a positive TWAP price, `calculateTokenBurn` returns
`usdCost / TWAP` clamped to `[burnFloor, burnCeiling]`; every returned value
lies in that interval (whenever the floor does not exceed the ceiling, as with
the 0.05 / 50 defaults), and the result is monotone non-decreasing in the USD
cost. -/
theorem calculateTokenBurn_spec (o : PriceOracleState) (now : ℤ)
    (usd1 usd2 p : ℚ) (htw : getTWAPPrice o now = .ok p) (hp : 0 < p)
    (hfc : o.burnFloor ≤ o.burnCeiling) (h12 : usd1 ≤ usd2) :
    calculateTokenBurn o now usd1 =
      .ok (max o.burnFloor (min (usd1 / p) o.burnCeiling)) ∧
    (∀ r, calculateTokenBurn o now usd1 = .ok r →
      o.burnFloor ≤ r ∧ r ≤ o.burnCeiling) ∧
    (∀ r1 r2, calculateTokenBurn o now usd1 = .ok r1 →
      calculateTokenBurn o now usd2 = .ok r2 → r1 ≤ r2) := by
  have hnp : ¬ p ≤ 0 := not_le.mpr hp
  have heval : ∀ u : ℚ, calculateTokenBurn o now u =
      .ok (max o.burnFloor (min (u / p) o.burnCeiling)) := by
    intro u
    simp [calculateTokenBurn, htw, hnp]
  refine ⟨heval usd1, ?_, ?_⟩
  · intro r hr
    rw [heval usd1] at hr
    have hr' : max o.burnFloor (min (usd1 / p) o.burnCeiling) = r :=
      Except.ok.inj hr
    rw [← hr']
    exact ⟨le_max_left _ _, max_le hfc (min_le_right _ _)⟩
  · intro r1 r2 h1 h2
    rw [heval usd1] at h1
    rw [heval usd2] at h2
    rw [← Except.ok.inj h1, ← Except.ok.inj h2]
    exact max_le_max le_rfl
      (min_le_min (by exact (div_le_div_iff_of_pos_right hp).mpr h12) le_rfl)

/-- Witness for C6 at TWAP price 2, costs 1 and 3, default clamps. -/
theorem calculateTokenBurn_spec_witness :
    calculateTokenBurn ⟨[⟨2, 0⟩], 10, 1/20, 50⟩ 0 1 =
      .ok (max (1/20 : ℚ) (min (1 / 2) 50)) ∧
    (∀ r, calculateTokenBurn ⟨[⟨2, 0⟩], 10, 1/20, 50⟩ 0 1 = .ok r →
      (1/20 : ℚ) ≤ r ∧ r ≤ 50) ∧
    (∀ r1 r2, calculateTokenBurn ⟨[⟨2, 0⟩], 10, 1/20, 50⟩ 0 1 = .ok r1 →
      calculateTokenBurn ⟨[⟨2, 0⟩], 10, 1/20, 50⟩ 0 3 = .ok r2 → r1 ≤ r2) :=
  calculateTokenBurn_spec ⟨[⟨2, 0⟩], 10, 1/20, 50⟩ 0 1 3 2
    (by norm_num [getTWAPPrice, List.filter, List.getLast?, List.foldl])
    (by norm_num) (by norm_num) (by norm_num)

/-- The total `tokensBurned` over ALL unsettled records — the quantity the
spec's description of `checkAndSettleIfNeeded` refers to ("sums all unsettled
tokensBurned").  Stated from the spec's words for comparison with the
implementation, which caps its read at the oldest 1000 records. -/
def sumUnsettledAll (st : Store) : ℚ :=
  ((st.usageRecords.filter (fun r => !r.settled)).map (fun r => r.tokensBurned)).sum

/-- One unsettled one-token usage record. -/
def bigRecord : UsageRecord := ⟨0, "W", RequestType.chat, 1, 1, 1, 0, false, none⟩

/-- A store holding 1001 identical unsettled one-token usage records. -/
def bigStore : Store := ⟨[], List.replicate 1001 bigRecord, 1001⟩

lemma bigRecord_filter (n : ℕ) :
    (List.replicate n bigRecord).filter (fun r => !r.settled) =
      List.replicate n bigRecord := by
  rw [List.filter_replicate]
  simp [bigRecord]

lemma bigStore_fetch :
    getUnsettledRecords bigStore 1000 = List.replicate 1000 bigRecord := by
  show (((List.replicate 1001 bigRecord).filter (fun r => !r.settled)).insertionSort
      (fun a b => a.timestamp ≤ b.timestamp)).take 1000 = List.replicate 1000 bigRecord
  rw [bigRecord_filter]
  have hsort : (List.replicate 1001 bigRecord).insertionSort
      (fun a b => a.timestamp ≤ b.timestamp) = List.replicate 1001 bigRecord :=
    List.Sorted.insertionSort_eq (List.pairwise_replicate.mpr (Or.inr le_rfl))
  rw [hsort, List.take_replicate]
  norm_num

/-- C9 counterexample: with 1001 unsettled one-token records and threshold
1001, the total over all unsettled records meets the threshold, yet
`checkAndSettleIfNeeded` reads only the oldest 1000 records
(`getUnsettledRecords(1000)`), sums 1000 < 1001, triggers no settlement and
returns `false` — contradicting the claim that it sums over all unsettled
records and settles exactly when that total reaches the threshold. -/
theorem checkAndSettle_caps_at_1000 :
    1001 ≤ sumUnsettledAll bigStore ∧
    checkAndSettleIfNeeded (fun _ _ => .ok "SIG") ⟨false, bigStore⟩ 1001 =
      (⟨false, bigStore⟩, .ok false) := by
  constructor
  · have htotal : sumUnsettledAll bigStore = 1001 := by
      show (((List.replicate 1001 bigRecord).filter (fun r => !r.settled)).map
        (fun r => r.tokensBurned)).sum = 1001
      rw [bigRecord_filter, List.map_replicate, List.sum_replicate]
      norm_num [bigRecord]
    rw [htotal]
  · have hpend : (getUnsettledRecords bigStore 1000).foldl
        (fun sum r => sum + r.tokensBurned) 0 = 1000 := by
      rw [bigStore_fetch, foldl_tokensBurned, List.map_replicate,
        List.sum_replicate]
      norm_num [bigRecord]
    simp only [checkAndSettleIfNeeded, hpend]
    rw [if_neg (by norm_num)]

/-- C9 amended: `checkAndSettleIfNeeded` sums `tokensBurned` over the oldest
at most 1000 unsettled records (the `getUnsettledRecords(1000)` page), not
over all of them; it triggers `executeBatchSettlement` exactly when that
capped sum meets the threshold, returns `true` exactly when it triggered a
run that did not throw, and propagates a thrown settlement error. -/
theorem checkAndSettleIfNeeded_spec (chain : ℚ → ℚ → Except ChainError String)
    (s : SettlementState) (threshold : ℚ) :
    (((getUnsettledRecords s.store 1000).map (fun r => r.tokensBurned)).sum <
        threshold →
      checkAndSettleIfNeeded chain s threshold = (s, .ok false)) ∧
    (threshold ≤
        ((getUnsettledRecords s.store 1000).map (fun r => r.tokensBurned)).sum →
      (checkAndSettleIfNeeded chain s threshold).1 =
        (executeBatchSettlement chain s).1 ∧
      (∀ e, (executeBatchSettlement chain s).2 = .failed e →
        (checkAndSettleIfNeeded chain s threshold).2 = .error e) ∧
      ((∀ e, (executeBatchSettlement chain s).2 ≠ .failed e) →
        (checkAndSettleIfNeeded chain s threshold).2 = .ok true)) ∧
    ((checkAndSettleIfNeeded chain s threshold).2 = .ok true →
      threshold ≤
        ((getUnsettledRecords s.store 1000).map (fun r => r.tokensBurned)).sum) := by
  have hpend : (getUnsettledRecords s.store 1000).foldl
      (fun sum r => sum + r.tokensBurned) 0 =
        ((getUnsettledRecords s.store 1000).map (fun r => r.tokensBurned)).sum := by
    rw [foldl_tokensBurned, zero_add]
  refine ⟨?_, ?_, ?_⟩
  · intro hlt
    simp only [checkAndSettleIfNeeded, hpend]
    rw [if_neg (not_le.mpr hlt)]
  · intro hth
    rcases hE : executeBatchSettlement chain s with ⟨s', out⟩
    cases out with
    | skipped =>
        refine ⟨?_, ?_, ?_⟩ <;>
          simp [checkAndSettleIfNeeded, hpend, hE, if_pos hth]
    | emptyBatch =>
        refine ⟨?_, ?_, ?_⟩ <;>
          simp [checkAndSettleIfNeeded, hpend, hE, if_pos hth]
    | committed sig b t =>
        refine ⟨?_, ?_, ?_⟩ <;>
          simp [checkAndSettleIfNeeded, hpend, hE, if_pos hth]
    | failed e =>
        refine ⟨?_, ?_, ?_⟩
        · simp [checkAndSettleIfNeeded, hpend, hE, if_pos hth]
        · intro e2 he2
          simp [hE] at he2
          simp [checkAndSettleIfNeeded, hpend, hE, if_pos hth, he2]
        · intro hno
          exact absurd (by simp [hE] : (executeBatchSettlement chain s).2 = .failed e)
            (by simpa using hno e)
  · intro hres
    by_cases hth : threshold ≤
        ((getUnsettledRecords s.store 1000).map (fun r => r.tokensBurned)).sum
    · exact hth
    · exfalso
      have heq : checkAndSettleIfNeeded chain s threshold = (s, .ok false) := by
        simp only [checkAndSettleIfNeeded, hpend]
        rw [if_neg hth]
      rw [heq] at hres
      simp at hres

/-- Witness for the amended C9: an empty store is below any positive
threshold, so nothing triggers. -/
theorem checkAndSettleIfNeeded_spec_witness :
    checkAndSettleIfNeeded (fun _ _ => .ok "SIG") ⟨false, Store.empty⟩ 1 =
      (⟨false, Store.empty⟩, .ok false) :=
  (checkAndSettleIfNeeded_spec (fun _ _ => .ok "SIG") ⟨false, Store.empty⟩ 1).1
    (by norm_num [getUnsettledRecords, Store.empty, List.insertionSort])

/-- The sender check passes: whenever a non-empty `expectedSender` is
supplied, the transfer's authority equals it. -/
def senderOk (expectedSender : Option String) (f : FoundTransfer) : Prop :=
  ∀ s, expectedSender = some s → s ≠ "" → f.transferAuthority = some s

/-- The mint check passes: whenever a non-empty `expectedTokenMint` is
supplied, the found mint equals it. -/
def mintOk (expectedTokenMint : Option String) (f : FoundTransfer) : Prop :=
  ∀ m, expectedTokenMint = some m → m ≠ "" → f.tokenMint = some m

/-- The amount check passes: whenever an `expectedAmount` is supplied, the
normalized found amount is within the fixed tolerance of it. -/
def amountOk (expectedAmount : Option ℚ) (f : FoundTransfer) : Prop :=
  ∀ a, expectedAmount = some a → |f.actualAmount - a| ≤ amountTolerance

lemma senderFailure_eq_none {esend : Option String} {f : FoundTransfer}
    (hs : senderOk esend f) : senderFailure esend f = none := by
  cases esend with
  | none => rfl
  | some s =>
      by_cases hse : s = ""
      · simp [senderFailure, hse]
      · have := hs s rfl hse
        simp [senderFailure, hse, this]

lemma mintFails_eq_false {emint : Option String} {f : FoundTransfer}
    (hm : mintOk emint f) : mintFails emint f = false := by
  cases emint with
  | none => rfl
  | some m =>
      by_cases hme : m = ""
      · simp [mintFails, hme]
      · have := hm m rfl hme
        simp [mintFails, hme, this]

lemma amountFails_eq_false {ea : Option ℚ} {f : FoundTransfer}
    (ha : amountOk ea f) : amountFails ea f = false := by
  cases ea with
  | none => rfl
  | some a =>
      have := ha a rfl
      simp [amountFails, not_lt.mpr this]

lemma verifyDeposit_reduces_to_checks
    {fetchTx : String → Except String (Option ParsedTx)}
    {parseKey : String → Except String String} {txh rec rk : String}
    {tx : ParsedTx} {f : FoundTransfer} {ea : Option ℚ}
    {emint esend : Option String}
    (hf : fetchTx txh = .ok (some tx)) (herr : txHasErr tx = false)
    (hk : parseKey rec = .ok rk) (hl : transferLookup rk rec tx = some f) :
    verifyDepositTransaction fetchTx parseKey txh rec ea emint esend =
      verifyChecks f ea emint esend := by
  unfold verifyDepositTransaction verifyDepositCore
  rw [hf]
  simp [herr, hk, hl]

/-- C8: `verifyDepositTransaction` fails closed and accepts only matching
transfers: it returns `isValid=false` when the transaction does not exist,
when it carries an on-chain execution error, when neither the parsed
instructions nor the pre/post token-balance snapshots show a transfer to the
expected recipient, when a supplied expected sender differs from (or cannot
be read off) the transfer authority, when a supplied expected mint differs
from the transfer's mint, or when a supplied expected amount differs from the
decimal-normalized transfer amount by more than the fixed tolerance; and when
every supplied check passes it returns `isValid=true` with the normalized
actual amount. -/
theorem verifyDepositTransaction_spec
    (fetchTx : String → Except String (Option ParsedTx))
    (parseKey : String → Except String String) (txh rec : String)
    (ea : Option ℚ) (emint esend : Option String) :
    (fetchTx txh = .ok none →
      verifyDepositTransaction fetchTx parseKey txh rec ea emint esend =
        invalidResult .txNotFound) ∧
    (∀ tx, fetchTx txh = .ok (some tx) → txHasErr tx = true →
      verifyDepositTransaction fetchTx parseKey txh rec ea emint esend =
        invalidResult .txExecutionFailed) ∧
    (∀ tx rk, fetchTx txh = .ok (some tx) → txHasErr tx = false →
      parseKey rec = .ok rk → transferLookup rk rec tx = none →
      verifyDepositTransaction fetchTx parseKey txh rec ea emint esend =
        invalidResult .noTransferFound) ∧
    (∀ tx rk f s, fetchTx txh = .ok (some tx) → txHasErr tx = false →
      parseKey rec = .ok rk → transferLookup rk rec tx = some f →
      esend = some s → s ≠ "" → f.transferAuthority = none →
      verifyDepositTransaction fetchTx parseKey txh rec ea emint esend =
        invalidResult .senderUnknown) ∧
    (∀ tx rk f s a, fetchTx txh = .ok (some tx) → txHasErr tx = false →
      parseKey rec = .ok rk → transferLookup rk rec tx = some f →
      esend = some s → s ≠ "" → f.transferAuthority = some a → a ≠ s →
      verifyDepositTransaction fetchTx parseKey txh rec ea emint esend =
        invalidResult .senderMismatch) ∧
    (∀ tx rk f m, fetchTx txh = .ok (some tx) → txHasErr tx = false →
      parseKey rec = .ok rk → transferLookup rk rec tx = some f →
      senderOk esend f → emint = some m → m ≠ "" → f.tokenMint ≠ some m →
      verifyDepositTransaction fetchTx parseKey txh rec ea emint esend =
        invalidResult .mintMismatch) ∧
    (∀ tx rk f a, fetchTx txh = .ok (some tx) → txHasErr tx = false →
      parseKey rec = .ok rk → transferLookup rk rec tx = some f →
      senderOk esend f → mintOk emint f →
      ea = some a → amountTolerance < |f.actualAmount - a| →
      verifyDepositTransaction fetchTx parseKey txh rec ea emint esend =
        invalidResult .amountMismatch) ∧
    (∀ tx rk f, fetchTx txh = .ok (some tx) → txHasErr tx = false →
      parseKey rec = .ok rk → transferLookup rk rec tx = some f →
      senderOk esend f → mintOk emint f → amountOk ea f →
      verifyDepositTransaction fetchTx parseKey txh rec ea emint esend =
        ⟨true, some f.actualAmount, none⟩) := by
  refine ⟨?_, ?_, ?_, ?_, ?_, ?_, ?_, ?_⟩
  · intro hf
    unfold verifyDepositTransaction verifyDepositCore
    rw [hf]
  · intro tx hf herr
    unfold verifyDepositTransaction verifyDepositCore
    rw [hf]
    simp [herr]
  · intro tx rk hf herr hk hl
    unfold verifyDepositTransaction verifyDepositCore
    rw [hf]
    simp [herr, hk, hl]
  · intro tx rk f s hf herr hk hl hes hse hauth
    rw [verifyDeposit_reduces_to_checks hf herr hk hl]
    subst hes
    unfold verifyChecks
    simp [senderFailure, hse, hauth]
  · intro tx rk f s a hf herr hk hl hes hse hauth hne
    rw [verifyDeposit_reduces_to_checks hf herr hk hl]
    subst hes
    unfold verifyChecks
    simp [senderFailure, hse, hauth, hne]
  · intro tx rk f m hf herr hk hl hs hem hme hmint
    rw [verifyDeposit_reduces_to_checks hf herr hk hl]
    subst hem
    unfold verifyChecks
    rw [senderFailure_eq_none hs]
    simp [mintFails, hme, hmint]
  · intro tx rk f a hf herr hk hl hs hm hea hfar
    rw [verifyDeposit_reduces_to_checks hf herr hk hl]
    subst hea
    unfold verifyChecks
    rw [senderFailure_eq_none hs]
    rw [mintFails_eq_false hm]
    simp [amountFails, hfar]
  · intro tx rk f hf herr hk hl hs hm ha
    rw [verifyDeposit_reduces_to_checks hf herr hk hl]
    unfold verifyChecks
    rw [senderFailure_eq_none hs]
    rw [mintFails_eq_false hm, amountFails_eq_false ha]
    rfl

/-- A concrete fetched transaction: one parsed token-program `transfer` of 50
raw units (1 decimal, so 5.0 tokens) of mint `MINT` to `RECIP`, authorized by
`SENDER`, with no execution error. -/
def sampleInfo : ParsedInfo :=
  ⟨some "RECIP", none, some 50, some ⟨none, some 1⟩, some "MINT", none,
    some "SENDER", none, none⟩

/-- The transaction wrapping `sampleInfo`. -/
def sampleTx : ParsedTx :=
  ⟨[⟨tokenProgramId, some ("transfer", sampleInfo)⟩], some ⟨false, none, none⟩⟩

/-- Witness for C8: the sample transfer passes every supplied check (expected
amount 5 matches the normalized 50 / 10¹ exactly) and is accepted with the
normalized actual amount. -/
theorem verifyDepositTransaction_spec_witness :
    verifyDepositTransaction (fun _ => .ok (some sampleTx)) (fun s => .ok s)
      "T" "RECIP" (some 5) (some "MINT") (some "SENDER") =
      ⟨true, some (5 : ℚ), none⟩ :=
  (verifyDepositTransaction_spec (fun _ => .ok (some sampleTx)) (fun s => .ok s)
      "T" "RECIP" (some 5) (some "MINT") (some "SENDER")).2.2.2.2.2.2.2
    sampleTx "RECIP" ⟨5, some "MINT", some "SENDER"⟩ rfl rfl rfl
    (by
      simp +decide [transferLookup, findTransferInstr, sampleTx, sampleInfo,
        strOr, numOr]
      norm_num)
    (by intro s hs hne; cases hs; rfl)
    (by intro m hm hne; cases hm; rfl)
    (by intro a ha; cases ha; norm_num [amountTolerance])

lemma verifyChecks_error_isSome (f : FoundTransfer) (ea : Option ℚ)
    (emint esend : Option String) :
    (verifyChecks f ea emint esend).isValid = false →
      ((verifyChecks f ea emint esend).error).isSome = true := by
  unfold verifyChecks
  split
  · intro _; rfl
  · split
    · intro _; rfl
    · split
      · intro _; rfl
      · intro h; exact absurd h (by simp)

lemma verifyDepositCore_ok_error_isSome
    (fetchTx : String → Except String (Option ParsedTx))
    (parseKey : String → Except String String) (txh rec : String)
    (ea : Option ℚ) (emint esend : Option String) (r : VerifyResult) :
    verifyDepositCore fetchTx parseKey txh rec ea emint esend = .ok r →
      r.isValid = false → r.error.isSome = true := by
  unfold verifyDepositCore
  split
  · intro hc; exact Except.noConfusion hc
  · intro hc _
    rw [← Except.ok.inj hc]; rfl
  · split
    · intro hc _
      rw [← Except.ok.inj hc]; rfl
    · split
      · intro hc; exact Except.noConfusion hc
      · split
        · intro hc _
          rw [← Except.ok.inj hc]; rfl
        · intro hc
          rw [← Except.ok.inj hc]
          exact verifyChecks_error_isSome _ _ _ _

/-- C10: the verifier is total at its interface: a thrown internal exception
(a failing RPC fetch, a malformed recipient key) is caught and reported as
`isValid=false` with a `caught` error, never upgraded to success; an
exception-free run returns its computed result unchanged; every invalid
result carries an error reason; and a valid result can only come from an
exception-free run. -/
theorem verifyDepositTransaction_total
    (fetchTx : String → Except String (Option ParsedTx))
    (parseKey : String → Except String String) (txh rec : String)
    (ea : Option ℚ) (emint esend : Option String) :
    (∀ msg, verifyDepositCore fetchTx parseKey txh rec ea emint esend =
        .error msg →
      verifyDepositTransaction fetchTx parseKey txh rec ea emint esend =
        ⟨false, none, some (.caught msg)⟩) ∧
    (∀ r, verifyDepositCore fetchTx parseKey txh rec ea emint esend = .ok r →
      verifyDepositTransaction fetchTx parseKey txh rec ea emint esend = r) ∧
    ((verifyDepositTransaction fetchTx parseKey txh rec ea emint esend).isValid
        = false →
      ((verifyDepositTransaction fetchTx parseKey txh rec ea emint
        esend).error).isSome = true) ∧
    ((verifyDepositTransaction fetchTx parseKey txh rec ea emint esend).isValid
        = true →
      verifyDepositCore fetchTx parseKey txh rec ea emint esend =
        .ok (verifyDepositTransaction fetchTx parseKey txh rec ea emint esend)) := by
  refine ⟨?_, ?_, ?_, ?_⟩
  · intro msg hmsg
    unfold verifyDepositTransaction
    rw [hmsg]
  · intro r hr
    unfold verifyDepositTransaction
    rw [hr]
  · intro hfalse
    cases hc : verifyDepositCore fetchTx parseKey txh rec ea emint esend with
    | error msg =>
        unfold verifyDepositTransaction
        rw [hc]
        rfl
    | ok r =>
        have heq : verifyDepositTransaction fetchTx parseKey txh rec ea emint
            esend = r := by
          unfold verifyDepositTransaction
          rw [hc]
        rw [heq] at hfalse ⊢
        exact verifyDepositCore_ok_error_isSome fetchTx parseKey txh rec ea
          emint esend r hc hfalse
  · intro htrue
    cases hc : verifyDepositCore fetchTx parseKey txh rec ea emint esend with
    | error msg =>
        exfalso
        have heq : verifyDepositTransaction fetchTx parseKey txh rec ea emint
            esend = ⟨false, none, some (.caught msg)⟩ := by
          unfold verifyDepositTransaction
          rw [hc]
        rw [heq] at htrue
        exact Bool.noConfusion htrue
    | ok r =>
        have heq : verifyDepositTransaction fetchTx parseKey txh rec ea emint
            esend = r := by
          unfold verifyDepositTransaction
          rw [hc]
        rw [heq]

/-- Witness for C10: a fetch that throws is caught and reported as an invalid
result, not an exception and not a success. -/
theorem verifyDepositTransaction_total_witness :
    verifyDepositTransaction (fun _ => .error "RPC connection refused")
      (fun s => .ok s) "T" "RECIP" none none none =
      ⟨false, none, some (.caught "RPC connection refused")⟩ :=
  (verifyDepositTransaction_total (fun _ => .error "RPC connection refused")
      (fun s => .ok s) "T" "RECIP" none none none).1
    "RPC connection refused" rfl

/-- Witness for C3: a wallet holding 1 token cannot be debited 5 — the call
throws `InsufficientBalance`. -/
theorem deductTokens_spec_witness :
    (deductTokens ⟨[⟨2, 0⟩], 10, 1/20, 50⟩ 0 ⟨[⟨"W", 1, 0, 1, []⟩], [], 0⟩
        "W" 5 .chat 1).2 = .error .insufficientBalance :=
  (deductTokens_spec ⟨[⟨2, 0⟩], 10, 1/20, 50⟩ 0 ⟨[⟨"W", 1, 0, 1, []⟩], [], 0⟩
      "W" 5 .chat 1).1.mpr
    (by
      have hfind : findWallet ⟨[⟨"W", 1, 0, 1, []⟩], [], 0⟩ "W" =
          some ⟨"W", 1, 0, 1, []⟩ := rfl
      rw [getBalance_found hfind]
      norm_num)
